import Mathlib

/-!
Verification development for the avyra-edai retrieval-augmented tutoring
backend.  The definitions below are shallow embeddings of the TypeScript
source:

* `supabase/functions/ask/index.ts` — cosine-similarity retrieval over a
  user's embedding corpus and the question-answering handler;
* `supabase/functions/quiz/index.ts` — quiz generation response shaping,
  quiz grading (`submitQuiz`) and the mastery tracker
  (`updateUserProgress`);
* the ingestion function's `chunkText` (greedy word-packing chunker).

Numbers that are IEEE-754 doubles in the source are modelled over the
rationals.  Every binary64 value is a rational, so the grading and
mastery arithmetic (`(m / q) * 100` followed by `Math.round`) is
modelled exactly: `fl` below is round-to-nearest-ties-to-even binary64
rounding, `jsDiv`/`jsMul` are the correctly-rounded IEEE operations,
and `Math.round` is — per the ECMAScript specification — the closest
integer to the exact value of its argument, the larger on ties, which
is Mathlib's `round`.  The embedding vectors of the retrieval pipeline
are idealised as reals; the retrieval claims are order-structural and
do not depend on rounding.  Division by zero, which yields `NaN` in
JavaScript, yields `0` in this model; theorems about quotients
therefore carry a nonemptiness hypothesis where the distinction could
matter.
-/

namespace AvyraEdai

/-! ## Quiz data model (quiz/index.ts) -/

/-- One question as stored in a quiz's `quiz_data` JSON column
(interface `QuizQuestion` in quiz/index.ts). -/
structure QuizQuestion where
  question : String
  options : List String
  correct_answer : Int
  explanation : String
  subject : Option String
  topic : Option String
  subtopic : Option String
deriving DecidableEq

/-- A row of the `quizzes` table, as read and written by quiz/index.ts. -/
structure QuizRow where
  id : String
  user_id : String
  title : String
  total_questions : Nat
  quiz_data : List QuizQuestion
  subject : Option String
  topic : Option String
  subtopic : Option String
  user_answers : Option (List Int)
  score : Option Int
  completed_at : Option String
deriving DecidableEq

/-- A row of the `progress` table, keyed by `(user_id, topic)`. -/
structure ProgressRow where
  user_id : String
  topic : String
  subject : Option String
  subtopic : Option String
  mastery_score : Int
  questions_attempted : Nat
  questions_correct : Nat
deriving DecidableEq

/-- The per-question entry of the grading response
(`results` in `submitQuiz`).  `user_answer` is `none` when
`submission.answers[index]` is out of bounds (JavaScript `undefined`). -/
structure QuestionResult where
  question : String
  user_answer : Option Int
  correct_answer : Int
  is_correct : Bool
  explanation : String
  options : List String
deriving DecidableEq

/-- The JSON body returned by `submitQuiz`. -/
structure SubmitResponse where
  score : Int
  correct_answers : Nat
  total_questions : Nat
  results : List QuestionResult
deriving DecidableEq

/-- Everything `submitQuiz` produces: the updated `quizzes` row it
persists, the `progress` row state after `updateUserProgress`, and the
response body. -/
structure SubmitOutcome where
  updatedQuiz : QuizRow
  newProgress : Option ProgressRow
  response : SubmitResponse
deriving DecidableEq

/-- The loop
`submission.answers.forEach((answer, index) => { if (questions[index] && answer === questions[index].correct_answer) correctAnswers++ })`
from `submitQuiz`: walk the answers with their index, counting an answer
when a question exists at that index and matches.  Answers beyond the
question list find `questions[index]` `undefined` (falsy) and do not
count. -/
def correctCount : List QuizQuestion → List Int → Nat
  | _, [] => 0
  | [], _ :: as => correctCount [] as
  | q :: qs, a :: as =>
      (if a = q.correct_answer then 1 else 0) + correctCount qs as

/-- Round to nearest, ties to even: the binary64 significand rounding.
`⌊x⌋` when the fractional part is below one half, `⌊x⌋ + 1` above, the
even neighbour on an exact tie. -/
def rne (x : ℚ) : ℤ :=
  if Int.fract x < 1 / 2 then ⌊x⌋
  else if 1 / 2 < Int.fract x then ⌊x⌋ + 1
  else if 2 ∣ ⌊x⌋ then ⌊x⌋ else ⌊x⌋ + 1

/-- IEEE-754 binary64 rounding of an exact rational: scale into the
53-bit significand range by the power of two `Int.log 2 x - 52`, round
the significand to nearest (ties to even), and scale back.  This is
exact for every finite value in the normal range, which covers every
value the modelled code produces (magnitudes between `2 ^ (-33)` and
`2 ^ 7`, or zero); subnormals, overflow and `NaN` are outside the
model — in particular `fl 0 = 0` where a JavaScript `0/0` is `NaN`. -/
def fl (x : ℚ) : ℚ :=
  if x = 0 then 0
  else if 0 < x then rne (x / 2 ^ (Int.log 2 x - 52)) * 2 ^ (Int.log 2 x - 52)
  else -(rne (-x / 2 ^ (Int.log 2 (-x) - 52)) * 2 ^ (Int.log 2 (-x) - 52))

/-- Binary64 division: IEEE-754 division is correctly rounded, i.e. the
rounding of the exact quotient. -/
def jsDiv (a b : ℚ) : ℚ := fl (a / b)

/-- Binary64 multiplication: IEEE-754 multiplication is correctly
rounded, i.e. the rounding of the exact product. -/
def jsMul (a b : ℚ) : ℚ := fl (a * b)

/-- `Math.round((correctAnswers / questions.length) * 100)` from
`submitQuiz`.  The division and the multiplication are the binary64
operations of the source (both operands of the division are small
integers, hence exact); `Math.round` itself is, per the ECMAScript
specification, the closest integer to the exact value of its double
argument, the larger on ties — Mathlib's `round` on the rational value
of that double.  For an empty question list the source produces `NaN`
(division by zero); here the quotient is `0`. -/
def computeScore (questions : List QuizQuestion) (answers : List Int) : Int :=
  round (jsMul (jsDiv (correctCount questions answers : ℚ) (questions.length : ℚ)) 100)

/-- JavaScript `x || fallback` on an optional string: `undefined`/`null`
and the empty string are falsy and select the fallback. -/
def truthyOrElse (x fallback : Option String) : Option String :=
  match x with
  | some s => if s = "" then fallback else some s
  | none => fallback

/-- `updateUserProgress` from quiz/index.ts.  `existing` is the
`maybeSingle()` lookup of the `(user_id, topic)` progress row; the result
is the progress row state after the call (`existing` itself when the
call is a no-op).  `if (!topic) return` is the JavaScript truthiness
test: both a missing topic and the empty string are falsy.
`score && score >= 70 ? 1 : 0` agrees with `70 ≤ score` for every
integer score, since `0 >= 70` is false anyway. -/
def updateUserProgress (userId : String) (subject topic subtopic : Option String)
    (score : Int) (existing : Option ProgressRow) : Option ProgressRow :=
  match topic with
  | none => existing
  | some t =>
    if t = "" then existing else
    let questionsAttempted : Nat :=
      (match existing with
       | some p => p.questions_attempted
       | none => 0) + 1
    let questionsCorrect : Nat :=
      (match existing with
       | some p => p.questions_correct
       | none => 0) + (if 70 ≤ score then 1 else 0)
    let newMasteryScore :=
      round (jsMul (jsDiv (questionsCorrect : ℚ) (questionsAttempted : ℚ)) 100)
    match existing with
    | some p =>
        some { p with
               mastery_score := newMasteryScore
               questions_attempted := questionsAttempted
               questions_correct := questionsCorrect
               subject := truthyOrElse subject p.subject
               subtopic := truthyOrElse subtopic p.subtopic }
    | none =>
        some { user_id := userId
               topic := t
               subject := truthyOrElse subject none
               subtopic := truthyOrElse subtopic none
               mastery_score := newMasteryScore
               questions_attempted := questionsAttempted
               questions_correct := questionsCorrect }

/-- `submitQuiz` from quiz/index.ts.  `quizLookup` is the result of the
`quizzes` single-row query for `(submission.quiz_id, userId)`; `now` is
`new Date().toISOString()`; `existingProgress` is the progress row the
subsequent `updateUserProgress` call reads.  The source performs no
completed-state check and no answer-length check: any found quiz is
re-graded and overwritten. -/
def submitQuiz (userId : String) (quizLookup : Option QuizRow)
    (answers : List Int) (now : String)
    (existingProgress : Option ProgressRow) : Except String SubmitOutcome :=
  match quizLookup with
  | none => .error "Quiz not found"
  | some quiz =>
    let questions := quiz.quiz_data
    let correctAnswers := correctCount questions answers
    let score := computeScore questions answers
    let updatedQuiz :=
      { quiz with
        user_answers := some answers
        score := some score
        completed_at := some now }
    let newProgress :=
      updateUserProgress userId quiz.subject quiz.topic quiz.subtopic score
        existingProgress
    let results := questions.enum.map fun p =>
      { question := p.2.question
        user_answer := answers.get? p.1
        correct_answer := p.2.correct_answer
        is_correct := decide (answers.get? p.1 = some p.2.correct_answer)
        explanation := p.2.explanation
        options := p.2.options : QuestionResult }
    .ok { updatedQuiz := updatedQuiz
          newProgress := newProgress
          response :=
            { score := score
              correct_answers := correctAnswers
              total_questions := questions.length
              results := results } }

/-- A question as it appears in the `generateQuiz` response body:
`{ id: index, question: q.question, options: q.options }`. -/
structure PublicQuestion where
  id : Nat
  question : String
  options : List String
deriving DecidableEq

/-- The JSON body returned by `generateQuiz`. -/
structure GenerateQuizResponse where
  quiz_id : String
  title : String
  questions : List PublicQuestion
deriving DecidableEq

/-- The response construction at the end of `generateQuiz`:
`quizQuestions.map((q, index) => ({ id: index, question: q.question, options: q.options }))`. -/
def generateQuizResponse (quiz_id title : String)
    (quizQuestions : List QuizQuestion) : GenerateQuizResponse :=
  { quiz_id := quiz_id
    title := title
    questions := quizQuestions.enum.map fun p =>
      { id := p.1
        question := p.2.question
        options := p.2.options : PublicQuestion } }

/-! ## Chunker (`chunkText` in the ingestion function)

Strings are modelled as lists of characters; `length` is the character
count (JavaScript counts UTF-16 code units, which agrees on the basic
plane). -/

/-- JavaScript `text.split(' ')`: split at every single space character.
The empty string splits to `[""]`; consecutive spaces produce empty
words; no other whitespace is a separator. -/
def splitSp : List Char → List (List Char)
  | [] => [[]]
  | c :: cs =>
      if c = ' ' then [] :: splitSp cs
      else
        match splitSp cs with
        | [] => [[c]]
        | w :: ws => (c :: w) :: ws

/-- Joining a list of words with single spaces (the specification-side
reading of "concatenating the chunks with single spaces"). -/
def joinSp : List (List Char) → List Char
  | [] => []
  | [w] => w
  | w :: ws => w ++ ' ' :: joinSp ws

/-- The `for (const word of words)` loop of `chunkText`, with the
already-accumulated `currentChunk` threaded through.  The JavaScript
truthiness test `if (currentChunk)` is `cur ≠ []`. -/
def chunkTextLoop (chunkSize : Nat) : List (List Char) → List Char → List (List Char)
  | [], cur => if cur = [] then [] else [cur]
  | w :: ws, cur =>
      if cur.length + w.length + 1 ≤ chunkSize then
        chunkTextLoop chunkSize ws (cur ++ (if cur = [] then [] else [' ']) ++ w)
      else if cur = [] then chunkTextLoop chunkSize ws w
      else cur :: chunkTextLoop chunkSize ws w

/-- `chunkText(text, chunkSize)` from the ingestion function: split on
single spaces, then greedily pack words into chunks, starting a new
chunk when appending the next word (plus a separating space) would
exceed `chunkSize`; a word is never split across chunks. -/
def chunkText (text : List Char) (chunkSize : Nat) : List (List Char) :=
  chunkTextLoop chunkSize (splitSp text) []

/-! ## Retrieval (ask/index.ts)

Embedding vectors are IEEE-754 double arrays in the source; they are
modelled as lists of reals.  Real division by zero is `0` here where
JavaScript would produce `NaN`. -/

/-- A row of the `embeddings` table as fetched by the ask handler. -/
structure EmbedRow where
  content : String
  upload_id : String
  subject : Option String
  topic : Option String
  subtopic : Option String
  embedding_data : List ℝ

/-- The accumulation loop of `cosineSimilarity`: `dot`, `na` and `nb`
are simultaneous sums over the indices of the two lists. The source
iterates over `a.length` indices; the handler only calls it on vectors
of equal length (the dimensionality filter), where this pairwise
recursion coincides with the indexed loop. -/
noncomputable def dotProduct : List ℝ → List ℝ → ℝ
  | x :: xs, y :: ys => x * y + dotProduct xs ys
  | _, _ => 0

/-- `cosineSimilarity(a, b) = dot / (Math.sqrt(na) * Math.sqrt(nb))`
from ask/index.ts. -/
noncomputable def cosineSimilarity (a b : List ℝ) : ℝ :=
  dotProduct a b / (Real.sqrt (dotProduct a a) * Real.sqrt (dotProduct b b))

/-- The dimensionality filter of the ask handler:
`(allEmbeds ?? []).filter(row => Array.isArray(row.embedding_data) && row.embedding_data.length === queryEmbedding.length)`.
In the typed model `embedding_data` is always an array. -/
def compatibleRows (queryEmbedding : List ℝ) (rows : List EmbedRow) : List EmbedRow :=
  rows.filter fun r => r.embedding_data.length == queryEmbedding.length

/-- `compatible.map(chunk => ({...chunk, similarity: cosineSimilarity(queryEmbedding, chunk.embedding_data)}))`:
each compatible row paired with its similarity score, in corpus order. -/
noncomputable def scoreRows (queryEmbedding : List ℝ) (rows : List EmbedRow) :
    List (EmbedRow × ℝ) :=
  (compatibleRows queryEmbedding rows).map fun r =>
    (r, cosineSimilarity queryEmbedding r.embedding_data)

/-- The ordering realised by the stable ECMAScript
`sort((a, b) => b.similarity - a.similarity)` on position-tagged scored
rows: strictly greater similarity first, original position first on
ties. -/
def simOrder (x y : Nat × EmbedRow × ℝ) : Prop :=
  y.2.2 < x.2.2 ∨ (x.2.2 = y.2.2 ∧ x.1 ≤ y.1)

instance : IsTrans (Nat × EmbedRow × ℝ) simOrder := by
  constructor
  intro a b c hab hbc
  rcases hab with hab | ⟨hab, hab2⟩ <;> rcases hbc with hbc | ⟨hbc, hbc2⟩
  · exact Or.inl (lt_trans hbc hab)
  · exact Or.inl (hbc ▸ hab)
  · exact Or.inl (hab ▸ hbc)
  · exact Or.inr ⟨hab.trans hbc, le_trans hab2 hbc2⟩

instance : IsTotal (Nat × EmbedRow × ℝ) simOrder := by
  constructor
  intro a b
  rcases lt_trichotomy a.2.2 b.2.2 with h | h | h
  · exact Or.inr (Or.inl h)
  · rcases Nat.le_total a.1 b.1 with h2 | h2
    · exact Or.inl (Or.inr ⟨h, h2⟩)
    · exact Or.inr (Or.inr ⟨h.symm, h2⟩)
  · exact Or.inl (Or.inl h)

noncomputable instance : DecidableRel simOrder := fun x y => by
  unfold simOrder; infer_instance

/-- The ECMAScript stable sort of the scored rows, descending by
similarity: tag each scored row with its position, sort by `simOrder`
(a stable sort by a total preorder on the similarity, realised as
insertion sort on the tagged pairs), and drop the tags. -/
noncomputable def sortScored (l : List (EmbedRow × ℝ)) : List (EmbedRow × ℝ) :=
  (l.enum.insertionSort simOrder).map Prod.snd

/-- The retrieval pipeline of the ask handler: filter to compatible
dimensionality, score by cosine similarity, sort descending (stable),
and keep the first `5` (`.slice(0, 5)`). -/
noncomputable def retrieve (queryEmbedding : List ℝ) (rows : List EmbedRow) :
    List (EmbedRow × ℝ) :=
  (sortScored (scoreRows queryEmbedding rows)).take 5

/-- The successful response body of the ask handler. -/
structure AskOk where
  answer : String
  subject : Option String
  topic : Option String
  subtopic : Option String
  sources : List (String × String)

/-- The ask handler after authentication and query embedding, from
ask/index.ts: `gen` is the black-box generation model
(`generateGeminiAnswer`), taking the question and the assembled context.
When no compatible embedding exists the handler returns the 400 error
without calling `gen`.  Context assembly and the `questions`-table
insert carry no algorithmic content for the claims and the context is
abstracted as the list of retrieved rows handed to `gen` via their
contents. -/
noncomputable def askHandler (gen : String → List (EmbedRow × ℝ) → String)
    (question : String) (queryEmbedding : List ℝ) (rows : List EmbedRow) :
    Except String AskOk :=
  let compatible := compatibleRows queryEmbedding rows
  if compatible.isEmpty then
    .error "No compatible embeddings found. Re-ingest notes."
  else
    let topK := retrieve queryEmbedding rows
    let answer := gen question topK
    .ok { answer := answer
          subject := topK.head?.bind fun c => c.1.subject
          topic := topK.head?.bind fun c => c.1.topic
          subtopic := topK.head?.bind fun c => c.1.subtopic
          sources := topK.map fun c => (c.1.content.take 200 ++ "...", c.1.upload_id) }

/-! ## Concrete fixtures used in witnesses and counterexamples -/

/-- A four-option question whose correct option is index 0. -/
def sampleQuestion1 : QuizQuestion :=
  ⟨"Q1", ["A", "B", "C", "D"], 0, "E1", none, none, none⟩

/-- A four-option question whose correct option is index 1. -/
def sampleQuestion2 : QuizQuestion :=
  ⟨"Q2", ["A", "B", "C", "D"], 1, "E2", none, none, none⟩

/-- `sampleQuestion1` with a different correct option index and a
different explanation, but the same question text and options. -/
def sampleQuestion1Alt : QuizQuestion :=
  ⟨"Q1", ["A", "B", "C", "D"], 3, "other explanation", none, none, none⟩

/-- A quiz that is already in the completed state: `completed_at`,
`user_answers` and `score` are set. -/
def completedQuiz : QuizRow :=
  { id := "quiz-1"
    user_id := "user-1"
    title := "Adaptive Practice Quiz"
    total_questions := 1
    quiz_data := [sampleQuestion1]
    subject := none
    topic := none
    subtopic := none
    user_answers := some [0]
    score := some 100
    completed_at := some "2025-08-05T12:00:00Z" }

/-- An open two-question quiz. -/
def openQuiz : QuizRow :=
  { id := "quiz-2"
    user_id := "user-1"
    title := "Adaptive Practice Quiz"
    total_questions := 2
    quiz_data := [sampleQuestion1, sampleQuestion2]
    subject := none
    topic := none
    subtopic := none
    user_answers := none
    score := none
    completed_at := none }

/-- An existing progress row: 2 attempts, 1 correct, mastery 50. -/
def sampleProgress : ProgressRow :=
  ⟨"user-2", "Algebra", none, none, 50, 2, 1⟩

/-- Forty copies of `sampleQuestion1` (correct option 0): `quiz_data`
is unvalidated model output, so any question count can occur. -/
def largeQuizQuestions : List QuizQuestion :=
  List.replicate 40 sampleQuestion1

/-- Forty answers of which exactly the first 23 are correct. -/
def largeQuizAnswers : List Int :=
  List.replicate 23 0 ++ List.replicate 17 1

/-- An open forty-question quiz.  At 23 correct answers out of 40 the
binary64 score computation lands just below 57.5 and rounds to 57,
while exact arithmetic gives 57.5 and rounds to 58. -/
def largeQuiz : QuizRow :=
  { id := "quiz-4"
    user_id := "user-1"
    title := "Adaptive Practice Quiz"
    total_questions := 40
    quiz_data := largeQuizQuestions
    subject := none
    topic := none
    subtopic := none
    user_answers := none
    score := none
    completed_at := none }

/-- A progress row with 39 attempts and 22 correct: one more correct
attempt reaches the 23-of-40 state. -/
def largeProgress : ProgressRow :=
  ⟨"user-1", "Fractions", none, none, 56, 39, 22⟩

end AvyraEdai

namespace AvyraEdai

/-! ## Helper lemmas -/

theorem correctCount_nil : ∀ as : List Int, correctCount [] as = 0
  | [] => rfl
  | _ :: as => correctCount_nil as

/-- The grading loop counts exactly the matching positions of
`answers.zip questions`. -/
theorem correctCount_eq_zip : ∀ (qs : List QuizQuestion) (as : List Int),
    correctCount qs as =
      (as.zip qs).countP fun p => decide (p.1 = p.2.correct_answer)
  | _, [] => by simp [correctCount]
  | [], _ :: as => by simp [correctCount, correctCount_nil]
  | q :: qs, a :: as => by
      simp only [correctCount, List.zip_cons_cons, List.countP_cons,
        correctCount_eq_zip qs as]
      by_cases h : a = q.correct_answer <;> simp [h, Nat.add_comm]

/-- The grading loop counts exactly the indices `i` with
`i < answers.length`, `i < questions.length` and a matching answer. -/
theorem correctCount_eq_rangeCount : ∀ (qs : List QuizQuestion) (as : List Int),
    correctCount qs as =
      (List.range as.length).countP fun i =>
        match qs.get? i, as.get? i with
        | some q, some a => decide (a = q.correct_answer)
        | _, _ => false
  | _, [] => by simp [correctCount]
  | [], a :: as => by
      rw [correctCount, correctCount_nil, Eq.comm, List.countP_eq_zero]
      intro i _
      simp
  | q :: qs, a :: as => by
      rw [correctCount, List.length_cons, List.range_succ_eq_map,
        List.countP_cons, List.countP_map, correctCount_eq_rangeCount qs as]
      simp only [List.get?_cons_zero, Function.comp_def, List.get?_cons_succ]
      by_cases h : a = q.correct_answer <;> simp [h, Nat.add_comm]

theorem log_eq_of_bounds {x : ℚ} (k : ℤ) (h0 : 0 < x)
    (h1 : (2 : ℚ) ^ k ≤ x) (h2 : x < (2 : ℚ) ^ (k + 1)) : Int.log 2 x = k := by
  have ha : k ≤ Int.log 2 x := (Int.zpow_le_iff_le_log (by norm_num) h0).mp h1
  have hb : Int.log 2 x < k + 1 := (Int.lt_zpow_iff_log_lt (by norm_num) h0).mp h2
  omega

/-- Evaluation rule for `fl`: bracketing a positive value between two
consecutive powers of two pins its binade, after which the rounding is
plain significand arithmetic. -/
theorem fl_eval {x : ℚ} (k : ℤ) (h0 : 0 < x)
    (h1 : (2 : ℚ) ^ k ≤ x) (h2 : x < (2 : ℚ) ^ (k + 1)) :
    fl x = rne (x / 2 ^ (k - 52)) * 2 ^ (k - 52) := by
  rw [fl, if_neg h0.ne', if_pos h0, log_eq_of_bounds k h0 h1 h2]

theorem fl_one : fl 1 = 1 := by
  rw [fl_eval 0 (by norm_num) (by norm_num) (by norm_num)]
  norm_num [rne, Int.fract]

theorem fl_hundred : fl 100 = 100 := by
  rw [fl_eval 6 (by norm_num) (by norm_num) (by norm_num)]
  norm_num [rne, Int.fract]

theorem fl_half : fl (1 / 2) = 1 / 2 := by
  rw [fl_eval (-1) (by norm_num) (by norm_num) (by norm_num)]
  norm_num [rne, Int.fract]

theorem fl_fifty : fl 50 = 50 := by
  rw [fl_eval 5 (by norm_num) (by norm_num) (by norm_num)]
  norm_num [rne, Int.fract]

/-- `23 / 40` is not a binary64 value: the significand
`(23 / 40) · 2 ^ 53` ends in `.4` and rounds down. -/
theorem fl_23_40 : fl (23 / 40) = 5179139571476070 / 2 ^ 53 := by
  rw [fl_eval (-1) (by norm_num) (by norm_num) (by norm_num)]
  norm_num [rne, Int.fract]

/-- Multiplying the double nearest `23 / 40` by `100` rounds to a value
just below `57.5` (the significand ends in `.375` and rounds down). -/
theorem fl_23_40_mul_100 :
    fl ((5179139571476070 / 2 ^ 53 : ℚ) * 100) = 8092405580431359 / 2 ^ 47 := by
  rw [fl_eval 5 (by norm_num) (by norm_num) (by norm_num)]
  norm_num [rne, Int.fract]

theorem js_round_one : round (jsMul (jsDiv (1 : ℚ) 1) 100) = 100 := by
  rw [jsDiv, jsMul, show ((1 : ℚ) / 1) = 1 by norm_num, fl_one,
    show ((1 : ℚ) * 100) = 100 by norm_num, fl_hundred]
  norm_num [round_eq]

theorem js_round_half : round (jsMul (jsDiv (1 : ℚ) 2) 100) = 50 := by
  rw [jsDiv, jsMul, fl_half, show ((1 / 2 : ℚ) * 100) = 50 by norm_num, fl_fifty]
  norm_num [round_eq]

/-- The binary64 evaluation of `(23 / 40) * 100` followed by
`Math.round` yields `57`, one below the exact `round (57.5) = 58`. -/
theorem js_round_23_40 : round (jsMul (jsDiv (23 : ℚ) 40) 100) = 57 := by
  rw [jsDiv, jsMul, fl_23_40, fl_23_40_mul_100]
  norm_num [round_eq]

/-- Two question lists agreeing on question text and options produce the
same tagged public projection, whatever the start index. -/
theorem enumFrom_map_eq_of_proj (n : Nat) :
    ∀ (qs1 qs2 : List QuizQuestion),
    qs1.map (fun q => (q.question, q.options))
      = qs2.map (fun q => (q.question, q.options)) →
    (List.enumFrom n qs1).map
        (fun p => (⟨p.1, p.2.question, p.2.options⟩ : PublicQuestion))
      = (List.enumFrom n qs2).map
        (fun p => (⟨p.1, p.2.question, p.2.options⟩ : PublicQuestion))
  | [], [], _ => rfl
  | [], _ :: _, h => by simp at h
  | _ :: _, [], h => by simp at h
  | q1 :: qs1, q2 :: qs2, h => by
      simp only [List.map_cons, List.cons.injEq, Prod.mk.injEq] at h
      obtain ⟨⟨hq, ho⟩, htl⟩ := h
      simp only [List.enumFrom, List.map_cons, List.cons.injEq]
      exact ⟨by rw [hq, ho], enumFrom_map_eq_of_proj (n + 1) qs1 qs2 htl⟩

theorem progress_after_80 :
    updateUserProgress "user-1" none (some "Fractions") none 80 none
      = some ⟨"user-1", "Fractions", none, none, 100, 1, 1⟩ := by
  simp only [updateUserProgress]
  rw [if_neg (by decide : ¬("Fractions" = ""))]
  simp only [truthyOrElse]
  norm_num [js_round_one]

theorem progress_after_80_50 :
    updateUserProgress "user-1" none (some "Fractions") none 50
        (some ⟨"user-1", "Fractions", none, none, 100, 1, 1⟩)
      = some ⟨"user-1", "Fractions", none, none, 50, 2, 1⟩ := by
  simp only [updateUserProgress]
  rw [if_neg (by decide : ¬("Fractions" = ""))]
  simp only [truthyOrElse]
  norm_num [js_round_half]

theorem computeScore_one : computeScore [sampleQuestion1] [0] = 100 := by
  have hc : correctCount [sampleQuestion1] [0] = 1 := by decide
  rw [computeScore, hc]
  norm_num [js_round_one]

theorem computeScore_half : computeScore [sampleQuestion1, sampleQuestion2] [0] = 50 := by
  have hc : correctCount [sampleQuestion1, sampleQuestion2] [0] = 1 := by decide
  rw [computeScore, hc]
  norm_num [js_round_half]

/-- Grading the forty-question fixture with 23 correct answers yields
57 — the binary64 computation, not the exact `round (57.5) = 58`. -/
theorem computeScore_large :
    computeScore largeQuizQuestions largeQuizAnswers = 57 := by
  have hc : correctCount largeQuizQuestions largeQuizAnswers = 23 := by decide
  have hl : largeQuizQuestions.length = 40 := by decide
  rw [computeScore, hc, hl]
  norm_num [js_round_23_40]

/-! ## Claim theorems -/

/-- C2 counterexample: submitting to a quiz whose `completed_at` is
already set is not rejected — `submitQuiz` succeeds and overwrites
`completed_at`, `score` and `user_answers` of the stored record, so the
claimed `AlreadyCompleted` rejection with an unchanged record is false
at this input. -/
theorem C2_counterexample :
    (submitQuiz "user-1" (some completedQuiz) [0] "2025-08-06T09:00:00Z" none).toOption.map
        (fun out => (out.updatedQuiz.completed_at, out.updatedQuiz.score,
          out.updatedQuiz.user_answers))
      = some (some "2025-08-06T09:00:00Z", some 100, some [0])
    ∧ completedQuiz.completed_at = some "2025-08-05T12:00:00Z" := by
  constructor
  · simp [submitQuiz, Except.toOption, completedQuiz, computeScore_one]
  · rfl

/-- C2 (amended): `submitQuiz` performs no completed-state check.  For
every found quiz — whatever its `completed_at` — and every answer set,
submission succeeds, the quiz is re-graded, and `user_answers`, `score`
and `completed_at` are overwritten. -/
theorem C2_resubmission_regrades (userId : String) (quiz : QuizRow)
    (answers : List Int) (now : String) (prog : Option ProgressRow) :
    (submitQuiz userId (some quiz) answers now prog).toOption.map
        (fun out => (out.updatedQuiz.user_answers, out.updatedQuiz.score,
          out.updatedQuiz.completed_at))
      = some (some answers, some (computeScore quiz.quiz_data answers), some now) := by
  simp [submitQuiz, Except.toOption]

/-- C3 counterexample: submitting a wrong-length answer set (1 answer to
a 2-question quiz) is not rejected — `submitQuiz` grades it (score 50)
and persists the completion, so the claimed `InvalidAnswerSet` failure
with no grading is false at this input. -/
theorem C3_counterexample :
    (submitQuiz "user-1" (some openQuiz) [0] "2025-08-06T09:00:00Z" none).toOption.map
        (fun out => (out.response.score, out.updatedQuiz.completed_at))
      = some (50, some "2025-08-06T09:00:00Z")
    ∧ ([0] : List Int).length ≠ openQuiz.quiz_data.length := by
  constructor
  · simp [submitQuiz, Except.toOption, openQuiz, computeScore_half]
  · decide

/-- C3 (amended): `submitQuiz` performs no answer-length validation.  A
submission whose answers array has a different length from the question
list is graded anyway (missing answers count as incorrect, extra
entries are ignored by the count) and the graded result is persisted. -/
theorem C3_mismatched_length_graded (userId : String) (quiz : QuizRow)
    (answers : List Int) (now : String) (prog : Option ProgressRow)
    (hlen : answers.length ≠ quiz.quiz_data.length) :
    (submitQuiz userId (some quiz) answers now prog).toOption.map
        (fun out => (out.response.score, out.updatedQuiz.completed_at,
          out.updatedQuiz.user_answers))
      = some (computeScore quiz.quiz_data answers, some now, some answers) := by
  simp [submitQuiz, Except.toOption]

theorem C3_mismatched_length_graded_witness :
    (submitQuiz "user-1" (some openQuiz) [0] "2025-08-06T09:00:00Z" none).toOption.map
        (fun out => (out.response.score, out.updatedQuiz.completed_at,
          out.updatedQuiz.user_answers))
      = some (computeScore openQuiz.quiz_data [0], some "2025-08-06T09:00:00Z",
          some [0]) :=
  C3_mismatched_length_graded "user-1" openQuiz [0] "2025-08-06T09:00:00Z" none
    (by decide)

/-- C4 counterexample: at 40 questions with 23 matching answers (a
same-length submission) the program's score is 57, but the claimed
exact formula gives `round (100 * 23 / 40) = round (57.5) = 58`: the
binary64 product `fl (23 / 40) * 100` rounds to `57.4999999999999928…`,
below the half-integer boundary. -/
theorem C4_counterexample :
    computeScore largeQuizQuestions largeQuizAnswers = 57
    ∧ largeQuizAnswers.length = largeQuizQuestions.length
    ∧ ((largeQuizAnswers.zip largeQuizQuestions).countP
        fun p => decide (p.1 = p.2.correct_answer)) = 23
    ∧ largeQuizQuestions.length = 40
    ∧ round (((100 : ℚ) * 23) / 40) = 58 :=
  ⟨computeScore_large, by decide, by decide, by decide, by norm_num [round_eq]⟩

/-- C4 (amended): for a quiz with question list `Q` and a same-length
answer set, the score is `Math.round` of the binary64 evaluation of
`(m / q) * 100`, where `m` counts the indices with
`answers[i] = Q[i].correct_answer` and `q = |Q|`.  Binary64 rounding can
move the product across a half-integer boundary, so this differs from
the exact `round (100 * m / q)` at some inputs (57 versus 58 at
`m = 23`, `q = 40`). -/
theorem C4_score_formula (questions : List QuizQuestion) (answers : List Int)
    (hlen : answers.length = questions.length) (hne : questions ≠ []) :
    computeScore questions answers =
      round (jsMul (jsDiv ((((answers.zip questions).countP
          fun p => decide (p.1 = p.2.correct_answer)) : ℕ) : ℚ)
        (questions.length : ℚ)) 100) := by
  rw [computeScore, correctCount_eq_zip]

theorem C4_score_formula_witness :
    computeScore [sampleQuestion1, sampleQuestion2] [0, 2] =
      round (jsMul (jsDiv (((([(0 : Int), 2].zip
            [sampleQuestion1, sampleQuestion2]).countP
          fun p => decide (p.1 = p.2.correct_answer)) : ℕ) : ℚ)
        (([sampleQuestion1, sampleQuestion2] : List QuizQuestion).length : ℚ)) 100) :=
  C4_score_formula [sampleQuestion1, sampleQuestion2] [0, 2] (by decide) (by decide)

/-- C10 counterexample: at a 40-question quiz with 23 matching answers
(`quiz_data` length is unvalidated model output, so such quizzes are in
scope) the program persists and returns score 57, but the claimed
exact `round (100 * m / q)` is `round (57.5) = 58`. -/
theorem C10_counterexample :
    (submitQuiz "user-1" (some largeQuiz) largeQuizAnswers
        "2025-08-06T09:00:00Z" none).toOption.map
        (fun out => out.response.score) = some 57
    ∧ ((List.range largeQuizAnswers.length).countP fun i =>
        match largeQuiz.quiz_data.get? i, largeQuizAnswers.get? i with
        | some q, some a => decide (a = q.correct_answer)
        | _, _ => false) = 23
    ∧ largeQuiz.quiz_data.length = 40
    ∧ round (((100 : ℚ) * 23) / 40) = 58 := by
  refine ⟨?_, by decide, by decide, by norm_num [round_eq]⟩
  simp only [submitQuiz, Except.toOption, Option.map_some, largeQuiz,
    computeScore_large]
  rfl

/-- C10 (amended): with no length validation, `submitQuiz` succeeds on
a found quiz with an answer set of any length and computes the score as
`Math.round` of the binary64 evaluation of `(m / q) * 100`, where `q`
is the question count and `m` counts the indices that lie below both
lengths and match the stored correct answer: extra answers never
contribute and unanswered questions count as incorrect (the denominator
stays `q`).  Binary64 rounding makes this differ from the exact
`round (100 * m / q)` at some inputs (57 versus 58 at `m = 23`,
`q = 40`). -/
theorem C10_score_any_length (userId : String) (quiz : QuizRow)
    (answers : List Int) (now : String) (prog : Option ProgressRow)
    (hne : quiz.quiz_data ≠ []) :
    (submitQuiz userId (some quiz) answers now prog).toOption.map
        (fun out => out.response.score)
      = some (round (jsMul (jsDiv ((((List.range answers.length).countP fun i =>
          match quiz.quiz_data.get? i, answers.get? i with
          | some q, some a => decide (a = q.correct_answer)
          | _, _ => false) : ℕ) : ℚ)
        (quiz.quiz_data.length : ℚ)) 100)) := by
  simp only [submitQuiz, Except.toOption, Option.map_some]
  rw [computeScore, correctCount_eq_rangeCount]
  rfl

theorem C10_score_any_length_witness :
    (submitQuiz "user-1" (some openQuiz) [0] "2025-08-06T09:00:00Z" none).toOption.map
        (fun out => out.response.score)
      = some (round (jsMul (jsDiv ((((List.range ([(0 : Int)] : List Int).length).countP fun i =>
          match openQuiz.quiz_data.get? i, ([(0 : Int)] : List Int).get? i with
          | some q, some a => decide (a = q.correct_answer)
          | _, _ => false) : ℕ) : ℚ)
        (openQuiz.quiz_data.length : ℚ)) 100)) :=
  C10_score_any_length "user-1" openQuiz [0] "2025-08-06T09:00:00Z" none (by decide)

/-- C7 counterexample: from an existing row with 39 attempts and 22
correct, one more quiz scoring 80 reaches the 23-of-40 state; the
program recomputes mastery as 57 (binary64), but the claimed
`round (100 * questionsCorrect / questionsAttempted)` is
`round (57.5) = 58`. -/
theorem C7_counterexample :
    (updateUserProgress "user-1" none (some "Fractions") none 80
        (some largeProgress)).map
        (fun r => (r.questions_attempted, r.questions_correct, r.mastery_score))
      = some (40, 23, 57)
    ∧ round (((100 : ℚ) * 23) / 40) = 58 := by
  constructor
  · simp only [updateUserProgress]
    rw [if_neg (by decide : ¬("Fractions" = ""))]
    simp only [truthyOrElse, largeProgress]
    norm_num [js_round_23_40]
  · norm_num [round_eq]

/-- C7 (amended): the mastery update.  With a present (truthy) topic:
an existing row gets `questionsAttempted` incremented,
`questionsCorrect` incremented exactly when the quiz score is at least
70, and `masteryScore` recomputed as `Math.round` of the binary64
evaluation of `(questionsCorrect / questionsAttempted) * 100` — which
differs from the exact `round (100 * correct / attempted)` at some
states (57 versus 58 at 23 of 40); a missing row is created with the
same arithmetic from zero; a missing topic makes the whole update a
no-op.  The two concrete conjuncts are the scenario from the claim:
from no row, a quiz scoring 80 yields
`(attempted, correct, mastery) = (1, 1, 100)` and a following quiz
scoring 50 yields `(2, 1, 50)` — exact at these small counts. -/
theorem C7_mastery_update :
    (∀ (userId : String) (subject subtopic : Option String) (t : String)
        (score : Int) (p : ProgressRow), t ≠ "" →
      (updateUserProgress userId subject (some t) subtopic score (some p)).map
          (fun r => (r.questions_attempted, r.questions_correct, r.mastery_score))
        = some (p.questions_attempted + 1,
            p.questions_correct + (if 70 ≤ score then 1 else 0),
            round (jsMul (jsDiv
              ((p.questions_correct + (if 70 ≤ score then 1 else 0) : ℕ) : ℚ)
              ((p.questions_attempted + 1 : ℕ) : ℚ)) 100)))
    ∧ (∀ (userId : String) (subject subtopic : Option String) (t : String)
        (score : Int), t ≠ "" →
      (updateUserProgress userId subject (some t) subtopic score none).map
          (fun r => (r.questions_attempted, r.questions_correct, r.mastery_score))
        = some (1, (if 70 ≤ score then 1 else 0),
            round (jsMul (jsDiv (((if 70 ≤ score then 1 else 0) : ℕ) : ℚ)
              ((1 : ℕ) : ℚ)) 100)))
    ∧ (∀ (userId : String) (subject subtopic : Option String) (score : Int)
        (existing : Option ProgressRow),
      updateUserProgress userId subject none subtopic score existing = existing)
    ∧ (updateUserProgress "user-1" none (some "Fractions") none 80 none).map
          (fun r => (r.questions_attempted, r.questions_correct, r.mastery_score))
        = some (1, 1, 100)
    ∧ (updateUserProgress "user-1" none (some "Fractions") none 50
          (updateUserProgress "user-1" none (some "Fractions") none 80 none)).map
          (fun r => (r.questions_attempted, r.questions_correct, r.mastery_score))
        = some (2, 1, 50) := by
  refine ⟨?_, ?_, ?_, ?_, ?_⟩
  · intro userId subject subtopic t score p ht
    simp only [updateUserProgress, ht, if_false, Option.map_some]
    rfl
  · intro userId subject subtopic t score ht
    simp only [updateUserProgress, ht, if_false, Option.map_some]
    simp
  · intro userId subject subtopic score existing
    rfl
  · rw [progress_after_80]
    rfl
  · rw [progress_after_80, progress_after_80_50]
    rfl

theorem C7_mastery_update_witness :
    (updateUserProgress "user-2" none (some "Algebra") none 80 (some sampleProgress)).map
        (fun r => (r.questions_attempted, r.questions_correct, r.mastery_score))
      = some (sampleProgress.questions_attempted + 1,
          sampleProgress.questions_correct + (if (70 : Int) ≤ 80 then 1 else 0),
          round (jsMul (jsDiv
            ((sampleProgress.questions_correct +
              (if (70 : Int) ≤ 80 then 1 else 0) : ℕ) : ℚ)
            ((sampleProgress.questions_attempted + 1 : ℕ) : ℚ)) 100)) :=
  C7_mastery_update.1 "user-2" none none "Algebra" 80 sampleProgress (by decide)

/-- C8: the quiz-generation response exposes, for each generated
question, exactly its index, question text and options; in particular
the response is a function of the question texts and options alone, so
`correct_answer` and `explanation` never leak into it. -/
theorem C8_response_omits_answers :
    (∀ (quiz_id title : String) (qs : List QuizQuestion),
      (generateQuizResponse quiz_id title qs).questions.map
          (fun p => (p.id, p.question, p.options))
        = qs.enum.map (fun p => (p.1, p.2.question, p.2.options)))
    ∧ (∀ (quiz_id title : String) (qs1 qs2 : List QuizQuestion),
      qs1.map (fun q => (q.question, q.options))
        = qs2.map (fun q => (q.question, q.options)) →
      generateQuizResponse quiz_id title qs1 = generateQuizResponse quiz_id title qs2) := by
  constructor
  · intro quiz_id title qs
    simp [generateQuizResponse, List.map_map]
  · intro quiz_id title qs1 qs2 h
    simp only [generateQuizResponse, GenerateQuizResponse.mk.injEq, true_and,
      List.enum]
    exact enumFrom_map_eq_of_proj 0 qs1 qs2 h

theorem C8_response_omits_answers_witness :
    generateQuizResponse "quiz-3" "Adaptive Practice Quiz" [sampleQuestion1]
      = generateQuizResponse "quiz-3" "Adaptive Practice Quiz" [sampleQuestion1Alt] :=
  C8_response_omits_answers.2 "quiz-3" "Adaptive Practice Quiz"
    [sampleQuestion1] [sampleQuestion1Alt] (by decide)

/-! ## Chunker lemmas -/

theorem splitSp_ne_nil : ∀ l : List Char, splitSp l ≠ []
  | [] => by simp [splitSp]
  | c :: cs => by
      rw [splitSp]
      split
      · simp
      · cases h : splitSp cs <;> simp

theorem joinSp_cons_of_ne_nil (x : List Char) {L : List (List Char)} (hL : L ≠ []) :
    joinSp (x :: L) = x ++ ' ' :: joinSp L := by
  cases L with
  | nil => exact absurd rfl hL
  | cons y ys => rfl

/-- Receiving a word glued from two halves with a space is the same as
keeping the halves as separate leading words. -/
theorem joinSp_glue (a b : List Char) (rest : List (List Char)) :
    joinSp ((a ++ ' ' :: b) :: rest) = a ++ ' ' :: joinSp (b :: rest) := by
  cases rest with
  | nil => rfl
  | cons r rs => simp [joinSp, List.append_assoc]

/-- Splitting on spaces and rejoining with spaces is the identity. -/
theorem joinSp_splitSp : ∀ l : List Char, joinSp (splitSp l) = l
  | [] => rfl
  | c :: cs => by
      rw [splitSp]
      by_cases hc : c = ' '
      · rw [if_pos hc]
        cases h : splitSp cs with
        | nil => exact absurd h (splitSp_ne_nil cs)
        | cons w ws =>
            rw [joinSp_cons_of_ne_nil [] (by simp), ← h, joinSp_splitSp cs,
              List.nil_append, hc]
      · rw [if_neg hc]
        cases h : splitSp cs with
        | nil => exact absurd h (splitSp_ne_nil cs)
        | cons w ws =>
            cases ws with
            | nil =>
                have := joinSp_splitSp cs
                rw [h] at this
                simpa [joinSp] using congrArg (c :: ·) this
            | cons v vs =>
                have := joinSp_splitSp cs
                rw [h] at this
                calc joinSp ((c :: w) :: v :: vs)
                    = c :: joinSp (w :: v :: vs) := by simp [joinSp]
                  _ = c :: cs := by rw [this]

theorem chunkTextLoop_ne_nil (chunkSize : Nat) :
    ∀ (ws : List (List Char)) (cur : List Char), cur ≠ [] →
      chunkTextLoop chunkSize ws cur ≠ []
  | [], cur, hcur => by simp [chunkTextLoop, hcur]
  | w :: ws, cur, hcur => by
      rw [chunkTextLoop]
      split
      · exact chunkTextLoop_ne_nil chunkSize ws _ (by simp [hcur])
      all_goals simp [hcur]

/-- Joining the chunks produced from pending words `ws` and accumulator
`cur` gives the same text as joining `cur` (when nonempty) followed by
the words, provided every pending word is nonempty. -/
theorem chunkTextLoop_join (chunkSize : Nat) :
    ∀ (ws : List (List Char)) (cur : List Char), (∀ w ∈ ws, w ≠ []) →
      joinSp (chunkTextLoop chunkSize ws cur)
        = joinSp (if cur = [] then ws else cur :: ws)
  | [], cur, _ => by
      by_cases hcur : cur = [] <;> simp [chunkTextLoop, hcur, joinSp]
  | w :: ws, cur, hws => by
      have hw : w ≠ [] := hws w (List.mem_cons_self w ws)
      have hws2 : ∀ u ∈ ws, u ≠ [] := fun u hu => hws u (List.mem_cons_of_mem w hu)
      rw [chunkTextLoop]
      split
      · rw [chunkTextLoop_join chunkSize ws _ hws2]
        by_cases hcur : cur = []
        · subst hcur
          simp [hw]
        · simp only [if_neg hcur]
          rw [if_neg (show ¬(cur ++ [' '] ++ w = []) by simp)]
          rw [show cur ++ [' '] ++ w = cur ++ ' ' :: w from by simp, joinSp_glue]
          exact (joinSp_cons_of_ne_nil cur (by simp)).symm
      · by_cases hcur : cur = []
        · rw [if_pos hcur, if_pos hcur, chunkTextLoop_join chunkSize ws w hws2,
            if_neg hw]
        · rw [if_neg hcur, if_neg hcur,
            joinSp_cons_of_ne_nil cur (chunkTextLoop_ne_nil chunkSize ws w hw),
            chunkTextLoop_join chunkSize ws w hws2, if_neg hw,
            ← joinSp_cons_of_ne_nil cur (by simp)]

/-- Invariant of the packing loop: every emitted chunk either fits in
`chunkSize` or is one of the words of `W`. -/
theorem chunkTextLoop_bound (chunkSize : Nat) (W : List (List Char)) :
    ∀ (ws : List (List Char)) (cur : List Char),
      (cur = [] ∨ cur.length ≤ chunkSize ∨ cur ∈ W) →
      (∀ w ∈ ws, w ∈ W) →
      ∀ c ∈ chunkTextLoop chunkSize ws cur, c.length ≤ chunkSize ∨ c ∈ W
  | [], cur, hcur, _, c, hc => by
      rw [chunkTextLoop] at hc
      split at hc
      · simp at hc
      · next hne =>
          rw [List.mem_singleton] at hc
          subst hc
          rcases hcur with h | h
          · exact absurd h hne
          · exact h
  | w :: ws, cur, hcur, hws, c, hc => by
      have hw : w ∈ W := hws w (List.mem_cons_self w ws)
      have hws2 : ∀ u ∈ ws, u ∈ W := fun u hu => hws u (List.mem_cons_of_mem w hu)
      rw [chunkTextLoop] at hc
      split at hc
      · next hcond =>
          refine chunkTextLoop_bound chunkSize W ws _ (Or.inr (Or.inl ?_)) hws2 c hc
          by_cases h : cur = []
          · subst h
            simp only [List.length_nil] at hcond
            simp
            omega
          · simp only [if_neg h, List.length_append, List.length_cons,
              List.length_nil] at hcond ⊢
            omega
      · split at hc
        · exact chunkTextLoop_bound chunkSize W ws w (Or.inr (Or.inr hw)) hws2 c hc
        · next hne =>
            rcases List.mem_cons.mp hc with rfl | hc2
            · rcases hcur with h | h
              · exact absurd h hne
              · exact h
            · exact chunkTextLoop_bound chunkSize W ws w (Or.inr (Or.inr hw)) hws2 c hc2

/-- C5 (amended): `chunkText` splits on single space characters.  Every
chunk fits within `chunkSize` unless it is a single space-delimited word
that alone exceeds `chunkSize`; when every space-split word of the input
is nonempty (no leading, trailing or consecutive spaces), joining the
chunks with single spaces reconstructs the input text exactly; empty
input yields no chunks. -/
theorem C5_chunkText_spec (text : List Char) (chunkSize : Nat) :
    (∀ c ∈ chunkText text chunkSize,
        c.length ≤ chunkSize ∨ (c ∈ splitSp text ∧ chunkSize < c.length))
    ∧ ((∀ w ∈ splitSp text, w ≠ []) →
        joinSp (chunkText text chunkSize) = text)
    ∧ chunkText [] chunkSize = [] := by
  refine ⟨?_, ?_, ?_⟩
  · intro c hc
    have h := chunkTextLoop_bound chunkSize (splitSp text) (splitSp text) []
      (Or.inl rfl) (fun w hw => hw) c hc
    rcases h with h | h
    · exact Or.inl h
    · rcases le_or_lt c.length chunkSize with h2 | h2
      · exact Or.inl h2
      · exact Or.inr ⟨h, h2⟩
  · intro hw
    rw [chunkText, chunkTextLoop_join chunkSize (splitSp text) [] hw, if_pos rfl,
      joinSp_splitSp]
  · rw [chunkText]
    show chunkTextLoop chunkSize [[]] [] = []
    rw [chunkTextLoop]
    split <;> simp [chunkTextLoop]

theorem C5_chunkText_spec_witness :
    joinSp (chunkText ['a', ' ', 'b', 'c'] 2) = ['a', ' ', 'b', 'c'] :=
  (C5_chunkText_spec ['a', ' ', 'b', 'c'] 2).2.1 (by decide)

/-- C5 counterexample: on input `"a  b"` (two consecutive spaces) with
`chunkSize = 10` the chunker emits the single chunk `"a  b"`, so joining
the chunks with single spaces retains the double space and does not
reconstruct the whitespace-normalized word sequence `"a b"`. -/
theorem C5_counterexample :
    joinSp (chunkText ['a', ' ', ' ', 'b'] 10)
      ≠ joinSp ((splitSp ['a', ' ', ' ', 'b']).filter fun w => !w.isEmpty) := by
  decide

/-! ## Retrieval lemmas -/

/-- Filtering a second projection commutes with dropping the tags. -/
theorem filter_map_snd {α β : Type} (p : β → Bool) (l : List (α × β)) :
    (l.map Prod.snd).filter p = (l.filter fun x => p x.2).map Prod.snd := by
  rw [List.filter_map]
  rfl

/-- The stable sort of the scored rows is a permutation of them. -/
theorem sortScored_perm (l : List (EmbedRow × ℝ)) : (sortScored l).Perm l := by
  rw [sortScored]
  have h := (List.perm_insertionSort simOrder l.enum).map Prod.snd
  rwa [List.enum_map_snd] at h

theorem mem_sortScored {l : List (EmbedRow × ℝ)} {x : EmbedRow × ℝ}
    (hx : x ∈ sortScored l) : x ∈ l :=
  (sortScored_perm l).mem_iff.mp hx

/-- Every scored row is a corpus row of matching dimensionality carrying
its cosine similarity. -/
theorem scoreRows_spec {q : List ℝ} {rows : List EmbedRow} {x : EmbedRow × ℝ}
    (hx : x ∈ scoreRows q rows) :
    x.1 ∈ rows ∧ x.1.embedding_data.length = q.length ∧
      x.2 = cosineSimilarity q x.1.embedding_data := by
  rw [scoreRows] at hx
  obtain ⟨r, hr, rfl⟩ := List.mem_map.mp hx
  rw [compatibleRows] at hr
  obtain ⟨hrow, hlen⟩ := List.mem_filter.mp hr
  exact ⟨hrow, by simpa using hlen, rfl⟩

/-- The stable sort is non-increasing in the similarity component. -/
theorem sortScored_pairwise (l : List (EmbedRow × ℝ)) :
    (sortScored l).Pairwise fun x y => y.2 ≤ x.2 := by
  rw [sortScored, List.pairwise_map]
  have hs : (l.enum.insertionSort simOrder).Pairwise simOrder :=
    List.sorted_insertionSort simOrder l.enum
  refine hs.imp ?_
  intro a b hab
  rcases hab with h | ⟨h, _⟩
  · exact le_of_lt h
  · exact le_of_eq h.symm

theorem sortScored_length (l : List (EmbedRow × ℝ)) :
    (sortScored l).length = l.length := by
  rw [sortScored, List.length_map, List.length_insertionSort, List.enum_length]

/-- Stability of the sort: for every similarity value `s`, the rows
scored exactly `s` appear in the sorted output in their original
(corpus) order. -/
theorem sortScored_filter_stable (l : List (EmbedRow × ℝ)) (s : ℝ) :
    (sortScored l).filter (fun x => decide (x.2 = s))
      = l.filter (fun x => decide (x.2 = s)) := by
  have hrhs : l.filter (fun x => decide (x.2 = s))
      = (l.enum.filter fun x => decide (x.2.2 = s)).map Prod.snd := by
    conv_lhs => rw [← List.enum_map_snd l]
    exact filter_map_snd _ l.enum
  rw [sortScored, filter_map_snd, hrhs]
  congr 1
  have hperm : ((l.enum.insertionSort simOrder).filter fun x => decide (x.2.2 = s)).Perm
      (l.enum.filter fun x => decide (x.2.2 = s)) :=
    List.Perm.filter _ (List.perm_insertionSort simOrder l.enum)
  haveI : IsAntisymm (Nat × EmbedRow × ℝ) (fun a b => a.1 < b.1) :=
    ⟨fun a b h1 h2 => absurd h2 (Nat.lt_asymm h1)⟩
  have hndE : ((l.enum.filter fun x => decide (x.2.2 = s)).map Prod.fst).Nodup := by
    have hsub : ((l.enum.filter fun x => decide (x.2.2 = s)).map Prod.fst).Sublist
        (l.enum.map Prod.fst) := (List.filter_sublist _).map Prod.fst
    rw [List.enum_map_fst] at hsub
    exact List.Nodup.sublist hsub (List.nodup_range _)
  have hsortedE : ((l.enum.filter fun x => decide (x.2.2 = s))).Pairwise
      (fun a b => a.1 < b.1) := by
    have h0 : (l.enum.map Prod.fst).Pairwise (· < ·) := by
      rw [List.enum_map_fst]
      exact List.sorted_lt_range _
    rw [List.pairwise_map] at h0
    exact h0.filter _
  have hall : ∀ x ∈ (l.enum.insertionSort simOrder).filter
      (fun x => decide (x.2.2 = s)), x.2.2 = s := by
    intro x hx
    exact of_decide_eq_true (List.mem_filter.mp hx).2
  have hle : ((l.enum.insertionSort simOrder).filter fun x => decide (x.2.2 = s)).Pairwise
      (fun a b => a.1 ≤ b.1) := by
    have hp : ((l.enum.insertionSort simOrder).filter
        fun x => decide (x.2.2 = s)).Pairwise simOrder :=
      (List.sorted_insertionSort simOrder l.enum).filter _
    refine List.Pairwise.imp_of_mem ?_ hp
    intro a b ha hb hab
    rcases hab with h | ⟨_, h⟩
    · rw [hall a ha, hall b hb] at h
      exact absurd h (lt_irrefl s)
    · exact h
  have hndS : (((l.enum.insertionSort simOrder).filter
      fun x => decide (x.2.2 = s)).map Prod.fst).Nodup :=
    (hperm.map Prod.fst).symm.nodup hndE
  have hne2 : ((l.enum.insertionSort simOrder).filter fun x => decide (x.2.2 = s)).Pairwise
      (fun a b => a.1 ≠ b.1) := List.pairwise_map.mp hndS
  have hsortedS : ((l.enum.insertionSort simOrder).filter
      fun x => decide (x.2.2 = s)).Pairwise (fun a b => a.1 < b.1) := by
    refine (hle.and hne2).imp ?_
    intro a b hab
    exact lt_of_le_of_ne hab.1 hab.2
  exact List.eq_of_perm_of_sorted hperm hsortedS hsortedE

/-- C1: retrieval excludes every chunk of mismatched vector
dimensionality, scores the remaining chunks by cosine similarity,
returns them in non-increasing similarity order, stable on ties
(preserving corpus order), and returns `min 5 (number of compatible
chunks)` results — at most `k = 5` and at most the compatible corpus
size. -/
theorem C1_retrieve_spec (q : List ℝ) (rows : List EmbedRow) :
    (∀ p ∈ retrieve q rows,
        p.1 ∈ rows ∧ p.1.embedding_data.length = q.length ∧
          p.2 = cosineSimilarity q p.1.embedding_data)
    ∧ (retrieve q rows).Pairwise (fun x y => y.2 ≤ x.2)
    ∧ (retrieve q rows).length = min 5 (compatibleRows q rows).length
    ∧ (sortScored (scoreRows q rows)).Perm (scoreRows q rows)
    ∧ (∀ s : ℝ, (sortScored (scoreRows q rows)).filter (fun p => decide (p.2 = s))
        = (scoreRows q rows).filter (fun p => decide (p.2 = s))) := by
  refine ⟨?_, ?_, ?_, sortScored_perm _, fun s => sortScored_filter_stable _ s⟩
  · intro p hp
    rw [retrieve] at hp
    exact scoreRows_spec (mem_sortScored ((List.take_sublist _ _).subset hp))
  · rw [retrieve]
    exact List.Pairwise.sublist (List.take_sublist _ _) (sortScored_pairwise _)
  · rw [retrieve, List.length_take, sortScored_length, scoreRows, List.length_map]

/-- C6: when no stored chunk matches the query vector's dimensionality
(in particular on an empty corpus), the ask handler fails with the
no-context error and never calls the generation model: the result does
not depend on the generation function at all. -/
theorem C6_no_context (gen1 gen2 : String → List (EmbedRow × ℝ) → String)
    (question : String) (q : List ℝ) (rows : List EmbedRow)
    (h : compatibleRows q rows = []) :
    askHandler gen1 question q rows
        = .error "No compatible embeddings found. Re-ingest notes."
    ∧ askHandler gen1 question q rows = askHandler gen2 question q rows := by
  constructor <;> simp [askHandler, h]

theorem C6_no_context_witness :
    askHandler (fun _ _ => "a grounded answer") "What is a fraction?" [(1 : ℝ)] []
        = .error "No compatible embeddings found. Re-ingest notes." :=
  (C6_no_context (fun _ _ => "a grounded answer") (fun _ _ => "")
    "What is a fraction?" [(1 : ℝ)] [] rfl).1

end AvyraEdai
